import Mathlib

/-!
Shallow embedding of the off-chain transaction engine.

The source is a small Rust program:
* `src/types/fixed_float.rs` — `FixedFloat(i64)`, a fixed-point amount scaled
  by 10000; its arithmetic (`+`, `-`, unary `-`) is exact integer arithmetic,
  which we model with `Int`.
* `src/types/transaction.rs` — `TransactionId(u32)`, `ClientId(u16)`,
  `TransactionState`, `TransactionInner`, `Transaction`; `Transaction::new`
  always sets `state = Alive`.
* `src/state.rs` — `State { transactions, accounts }` with `process`,
  `cache_transaction`, `get_or_create_account`.
* `src/main.rs` — `run` folds `State::process` over the input stream and
  aborts at the first error.

`HashMap` is modelled as an association list with unique-key discipline
maintained by `AMap.set` (insert-or-update), so `get_mut`/`entry` become
`AMap.find`/`AMap.set`.  `State::process` takes `&mut self` in Rust and can
mutate the state before returning an error, so it is embedded as
`State → Transaction → State × Option ProcessError`: the returned state is the
state as actually left behind, also on the error path.
-/

abbrev FixedFloat := Int

abbrev ClientId := Nat

abbrev TransactionId := Nat

inductive TransactionState where
  | Alive
  | Disputed
  | ChargedBack
deriving DecidableEq

inductive TransactionInner where
  | Deposit (amount : FixedFloat)
  | Withdrawal (amount : FixedFloat)
  | Dispute
  | Resolve
  | Chargeback
deriving DecidableEq

structure Transaction where
  transaction_id : TransactionId
  client_id : ClientId
  inner : TransactionInner
  state : TransactionState
deriving DecidableEq

/-- `Transaction::new` — every transaction decoded from the input has
`state = Alive`. -/
def Transaction.new (transaction_id : TransactionId) (client_id : ClientId)
    (inner : TransactionInner) : Transaction :=
  { transaction_id := transaction_id, client_id := client_id, inner := inner,
    state := TransactionState.Alive }

structure AccountState where
  available : FixedFloat
  held : FixedFloat
  locked : Bool
deriving DecidableEq

/-- `AccountState::default()` — zero balances, unlocked. -/
def AccountState.default : AccountState :=
  { available := 0, held := 0, locked := false }

inductive ProcessError where
  | DisputedTransactionClientMissing (client_id : ClientId)
  | DisputeTargetInvalid (transaction_id : TransactionId)
  | DuplicateTransactionId (transaction_id : TransactionId)
deriving DecidableEq

/-- `HashMap` lookup on the association-list model. -/
def AMap.find {V : Type} : List (Nat × V) → Nat → Option V
  | [], _ => none
  | (k, v) :: rest, k0 => if k0 = k then some v else AMap.find rest k0

/-- `HashMap` insert-or-update on the association-list model: replaces the
first binding of the key, or appends a fresh binding. -/
def AMap.set {V : Type} : List (Nat × V) → Nat → V → List (Nat × V)
  | [], k, v => [(k, v)]
  | (k0, v0) :: rest, k, v =>
      if k = k0 then (k0, v) :: rest else (k0, v0) :: AMap.set rest k v

structure State where
  transactions : List (Nat × Transaction)
  accounts : List (Nat × AccountState)
deriving DecidableEq

/-- `State::default()` — both maps empty. -/
def State.default : State := { transactions := [], accounts := [] }

/-- `State::cache_transaction`: fails with `DuplicateTransactionId` when the
id is already bound in history, otherwise stores the transaction under its own
id. -/
def State.cache_transaction (s : State) (txn : Transaction) :
    Except ProcessError State :=
  match AMap.find s.transactions txn.transaction_id with
  | some _ => Except.error (ProcessError.DuplicateTransactionId txn.transaction_id)
  | none =>
      Except.ok { s with
        transactions := AMap.set s.transactions txn.transaction_id txn }

/-- The `let amount = match disputed_txn.inner { ... }` shared by the
Dispute/Resolve/Chargeback branches of `State::process`: a Deposit disputes
its amount, a Withdrawal the negation of its amount, anything else is
`DisputeTargetInvalid`. -/
def disputed_amount (inner : TransactionInner) (tid : TransactionId) :
    Except ProcessError FixedFloat :=
  match inner with
  | TransactionInner.Deposit amount => Except.ok amount
  | TransactionInner.Withdrawal amount => Except.ok (-amount)
  | _ => Except.error (ProcessError.DisputeTargetInvalid tid)

/-- The `TransactionInner::Deposit` branch of `State::process`:
fetch-or-create the account, add the amount to `available` unconditionally
(even when locked), then try to cache; on a caching error the balance
mutation is left in place, as in the Rust `&mut self` code. -/
def State.process_deposit (s : State) (txn : Transaction)
    (amount : FixedFloat) : State × Option ProcessError :=
  let account := (AMap.find s.accounts txn.client_id).getD AccountState.default
  let s1 : State := { s with
    accounts := AMap.set s.accounts txn.client_id
      { account with available := account.available + amount } }
  match s1.cache_transaction txn with
  | Except.ok s2 => (s2, none)
  | Except.error e => (s1, some e)

/-- The `TransactionInner::Withdrawal` branch of `State::process`:
fetch-or-create the account; a locked account drops the withdrawal without
caching; otherwise subtract when funds suffice and cache either way. -/
def State.process_withdrawal (s : State) (txn : Transaction)
    (amount : FixedFloat) : State × Option ProcessError :=
  let account := (AMap.find s.accounts txn.client_id).getD AccountState.default
  let s1 : State := { s with
    accounts := AMap.set s.accounts txn.client_id account }
  if account.locked then (s1, none)
  else
    let account2 :=
      if amount ≤ account.available then
        { account with available := account.available - amount }
      else account
    let s2 : State := { s1 with
      accounts := AMap.set s1.accounts txn.client_id account2 }
    match s2.cache_transaction txn with
    | Except.ok s3 => (s3, none)
    | Except.error e => (s2, some e)

/-- The `TransactionInner::Dispute` branch of `State::process`: missing
record or non-`Alive` record is a no-op; otherwise move the disputed amount
from `available` to `held` on the referenced record's client and mark the
record `Disputed`. -/
def State.process_dispute (s : State) (tid : TransactionId) :
    State × Option ProcessError :=
  match AMap.find s.transactions tid with
  | none => (s, none)
  | some disputed_txn =>
    match disputed_txn.state with
    | TransactionState.Disputed => (s, none)
    | TransactionState.ChargedBack => (s, none)
    | TransactionState.Alive =>
      match disputed_amount disputed_txn.inner tid with
      | Except.error e => (s, some e)
      | Except.ok amount =>
        match AMap.find s.accounts disputed_txn.client_id with
        | none =>
            (s, some (ProcessError.DisputedTransactionClientMissing
              disputed_txn.client_id))
        | some account =>
            ({ transactions := AMap.set s.transactions tid
                 { disputed_txn with state := TransactionState.Disputed },
               accounts := AMap.set s.accounts disputed_txn.client_id
                 { account with
                   available := account.available - amount,
                   held := account.held + amount } }, none)

/-- The `TransactionInner::Resolve` branch of `State::process`: missing
record or non-`Disputed` record is a no-op; otherwise move the disputed
amount back from `held` to `available` and mark the record `Alive`. -/
def State.process_resolve (s : State) (tid : TransactionId) :
    State × Option ProcessError :=
  match AMap.find s.transactions tid with
  | none => (s, none)
  | some disputed_txn =>
    match disputed_txn.state with
    | TransactionState.Alive => (s, none)
    | TransactionState.ChargedBack => (s, none)
    | TransactionState.Disputed =>
      match disputed_amount disputed_txn.inner tid with
      | Except.error e => (s, some e)
      | Except.ok amount =>
        match AMap.find s.accounts disputed_txn.client_id with
        | none =>
            (s, some (ProcessError.DisputedTransactionClientMissing
              disputed_txn.client_id))
        | some account =>
            ({ transactions := AMap.set s.transactions tid
                 { disputed_txn with state := TransactionState.Alive },
               accounts := AMap.set s.accounts disputed_txn.client_id
                 { account with
                   available := account.available + amount,
                   held := account.held - amount } }, none)

/-- The `TransactionInner::Chargeback` branch of `State::process`: missing
record or non-`Disputed` record is a no-op; otherwise remove the disputed
amount from `held`, lock the account, and mark the record `ChargedBack`. -/
def State.process_chargeback (s : State) (tid : TransactionId) :
    State × Option ProcessError :=
  match AMap.find s.transactions tid with
  | none => (s, none)
  | some disputed_txn =>
    match disputed_txn.state with
    | TransactionState.Alive => (s, none)
    | TransactionState.ChargedBack => (s, none)
    | TransactionState.Disputed =>
      match disputed_amount disputed_txn.inner tid with
      | Except.error e => (s, some e)
      | Except.ok amount =>
        match AMap.find s.accounts disputed_txn.client_id with
        | none =>
            (s, some (ProcessError.DisputedTransactionClientMissing
              disputed_txn.client_id))
        | some account =>
            ({ transactions := AMap.set s.transactions tid
                 { disputed_txn with state := TransactionState.ChargedBack },
               accounts := AMap.set s.accounts disputed_txn.client_id
                 { account with
                   held := account.held - amount,
                   locked := true } }, none)

/-- `State::process` — the single dispatch point.  Note that the
Dispute/Resolve/Chargeback branches receive only `txn.transaction_id`: the
Rust code never reads `txn.client_id` there. -/
def State.process (s : State) (txn : Transaction) :
    State × Option ProcessError :=
  match txn.inner with
  | TransactionInner.Deposit amount => s.process_deposit txn amount
  | TransactionInner.Withdrawal amount => s.process_withdrawal txn amount
  | TransactionInner.Dispute => s.process_dispute txn.transaction_id
  | TransactionInner.Resolve => s.process_resolve txn.transaction_id
  | TransactionInner.Chargeback => s.process_chargeback txn.transaction_id

/-- The driver loop of `run` in `src/main.rs`: fold `process` over the
stream, aborting at the first error. -/
def runList : State → List Transaction → Except ProcessError State
  | s, [] => Except.ok s
  | s, txn :: rest =>
    match State.process s txn with
    | (s1, none) => runList s1 rest
    | (_, some e) => Except.error e

/-- The allowed one-step moves of `lifecycle_state`:
stay put, `Alive → Disputed`, `Disputed → Alive`, `Disputed → ChargedBack`. -/
def lifecycle_step (a b : TransactionState) : Bool :=
  a = b ||
  (a = TransactionState.Alive && b = TransactionState.Disputed) ||
  (a = TransactionState.Disputed &&
    (b = TransactionState.Alive || b = TransactionState.ChargedBack))

/-- Every history record is a Deposit or Withdrawal and its client has an
account. -/
def goodState (s : State) : Prop :=
  ∀ id t, AMap.find s.transactions id = some t →
    ((∃ a, t.inner = TransactionInner.Deposit a) ∨
     (∃ a, t.inner = TransactionInner.Withdrawal a)) ∧
    (∃ acct, AMap.find s.accounts t.client_id = some acct)

/-- States reachable from the empty state by successful `process` steps
(the driver never continues past an error). -/
inductive Reachable : State → Prop where
  | refl : Reachable State.default
  | step {s s1 : State} {txn : Transaction} :
      Reachable s → State.process s txn = (s1, none) → Reachable s1

/- Basic lemmas about the association-list map. -/

theorem AMap.find_set_self {V : Type} (m : List (Nat × V)) (k : Nat) (v : V) :
    AMap.find (AMap.set m k v) k = some v := by
  induction m with
  | nil => simp [AMap.find, AMap.set]
  | cons p rest ih =>
    cases p with
    | mk k0 v0 =>
      by_cases h : k = k0
      · subst h; simp [AMap.set, AMap.find]
      · simp [AMap.set, h, AMap.find, ih]

theorem AMap.find_set_ne {V : Type} (m : List (Nat × V)) (k q : Nat) (v : V)
    (h : q ≠ k) : AMap.find (AMap.set m k v) q = AMap.find m q := by
  induction m with
  | nil => simp [AMap.find, AMap.set, h]
  | cons p rest ih =>
    cases p with
    | mk k0 v0 =>
      by_cases hk : k = k0
      · subst hk; simp [AMap.set, AMap.find, h]
      · simp only [AMap.set, hk, if_false, AMap.find, ih]

theorem AMap.set_set {V : Type} (m : List (Nat × V)) (k : Nat) (v w : V) :
    AMap.set (AMap.set m k v) k w = AMap.set m k w := by
  induction m with
  | nil => simp [AMap.set]
  | cons p rest ih =>
    cases p with
    | mk k0 v0 =>
      by_cases hk : k = k0
      · subst hk; simp [AMap.set]
      · simp [AMap.set, hk, ih]

theorem AMap.set_find_eq {V : Type} (m : List (Nat × V)) (k : Nat) (v : V)
    (h : AMap.find m k = some v) : AMap.set m k v = m := by
  induction m with
  | nil => simp [AMap.find] at h
  | cons p rest ih =>
    cases p with
    | mk k0 v0 =>
      by_cases hk : k = k0
      · subst hk
        simp [AMap.find] at h
        simp [AMap.set, h]
      · simp [AMap.find, hk] at h
        simp [AMap.set, hk, ih h]

theorem AMap.find_set_isSome {V : Type} (m : List (Nat × V)) (k q : Nat)
    (v : V) (h : (AMap.find m q).isSome) :
    (AMap.find (AMap.set m k v) q).isSome := by
  by_cases hq : q = k
  · subst hq; simp [AMap.find_set_self]
  · rw [AMap.find_set_ne m k q v hq]; exact h

/- Sanity checks replicating the repository's own unit tests. -/

/-- `test_basic_example` from `src/state.rs` (amounts scaled by 10000). -/
theorem embed_test_basic_example :
    runList State.default
      [Transaction.new 1 1 (TransactionInner.Deposit 10000),
       Transaction.new 2 2 (TransactionInner.Deposit 20000),
       Transaction.new 3 1 (TransactionInner.Deposit 20000),
       Transaction.new 4 1 (TransactionInner.Withdrawal 15000),
       Transaction.new 5 2 (TransactionInner.Withdrawal 30000)] =
    Except.ok
      { transactions :=
          [(1, Transaction.new 1 1 (TransactionInner.Deposit 10000)),
           (2, Transaction.new 2 2 (TransactionInner.Deposit 20000)),
           (3, Transaction.new 3 1 (TransactionInner.Deposit 20000)),
           (4, Transaction.new 4 1 (TransactionInner.Withdrawal 15000)),
           (5, Transaction.new 5 2 (TransactionInner.Withdrawal 30000))],
        accounts :=
          [(1, { available := 15000, held := 0, locked := false }),
           (2, { available := 20000, held := 0, locked := false })] } := by
  rfl

/-- `test_dispute_withdrawal` from `src/state.rs`: after deposit 5.0,
withdrawal 3.0, dispute of the withdrawal, the account shows
available 5.0 and held -3.0 — available went up. -/
theorem embed_test_dispute_withdrawal :
    (runList State.default
      [Transaction.new 1 1 (TransactionInner.Deposit 50000),
       Transaction.new 2 1 (TransactionInner.Withdrawal 30000),
       Transaction.new 2 1 TransactionInner.Dispute]).map
      (fun s => AMap.find s.accounts 1) =
    Except.ok (some { available := 50000, held := -30000, locked := false }) := by
  rfl

/-- `test_chargeback` from `src/state.rs`. -/
theorem embed_test_chargeback :
    (runList State.default
      [Transaction.new 1 1 (TransactionInner.Deposit 1230000),
       Transaction.new 2 1 (TransactionInner.Deposit 4560000),
       Transaction.new 1 1 TransactionInner.Dispute,
       Transaction.new 1 1 TransactionInner.Chargeback]).map
      (fun s => (AMap.find s.accounts 1,
                 (AMap.find s.transactions 1).map Transaction.state)) =
    Except.ok
      (some { available := 4560000, held := 0, locked := true },
       some TransactionState.ChargedBack) := by
  rfl

/- Characterization lemmas for the five branches of `State.process`. -/

theorem process_dispute_missing (s : State) (tid : TransactionId)
    (h : AMap.find s.transactions tid = none) :
    State.process_dispute s tid = (s, none) := by
  simp [State.process_dispute, h]

theorem process_dispute_not_alive (s : State) (tid : TransactionId)
    (dt : Transaction) (h : AMap.find s.transactions tid = some dt)
    (hstate : dt.state ≠ TransactionState.Alive) :
    State.process_dispute s tid = (s, none) := by
  cases hdt : dt.state with
  | Alive => exact absurd hdt hstate
  | Disputed => simp [State.process_dispute, h, hdt]
  | ChargedBack => simp [State.process_dispute, h, hdt]

theorem process_dispute_apply (s : State) (tid : TransactionId)
    (dt : Transaction) (X : FixedFloat) (a : AccountState)
    (h : AMap.find s.transactions tid = some dt)
    (hstate : dt.state = TransactionState.Alive)
    (hamt : disputed_amount dt.inner tid = Except.ok X)
    (hacct : AMap.find s.accounts dt.client_id = some a) :
    State.process_dispute s tid =
    ({ transactions := AMap.set s.transactions tid
         { dt with state := TransactionState.Disputed },
       accounts := AMap.set s.accounts dt.client_id
         { a with available := a.available - X, held := a.held + X } },
     none) := by
  simp [State.process_dispute, h, hstate, hamt, hacct]

theorem process_resolve_missing (s : State) (tid : TransactionId)
    (h : AMap.find s.transactions tid = none) :
    State.process_resolve s tid = (s, none) := by
  simp [State.process_resolve, h]

theorem process_resolve_not_disputed (s : State) (tid : TransactionId)
    (dt : Transaction) (h : AMap.find s.transactions tid = some dt)
    (hstate : dt.state ≠ TransactionState.Disputed) :
    State.process_resolve s tid = (s, none) := by
  cases hdt : dt.state with
  | Disputed => exact absurd hdt hstate
  | Alive => simp [State.process_resolve, h, hdt]
  | ChargedBack => simp [State.process_resolve, h, hdt]

theorem process_resolve_apply (s : State) (tid : TransactionId)
    (dt : Transaction) (X : FixedFloat) (a : AccountState)
    (h : AMap.find s.transactions tid = some dt)
    (hstate : dt.state = TransactionState.Disputed)
    (hamt : disputed_amount dt.inner tid = Except.ok X)
    (hacct : AMap.find s.accounts dt.client_id = some a) :
    State.process_resolve s tid =
    ({ transactions := AMap.set s.transactions tid
         { dt with state := TransactionState.Alive },
       accounts := AMap.set s.accounts dt.client_id
         { a with available := a.available + X, held := a.held - X } },
     none) := by
  simp [State.process_resolve, h, hstate, hamt, hacct]

theorem process_chargeback_missing (s : State) (tid : TransactionId)
    (h : AMap.find s.transactions tid = none) :
    State.process_chargeback s tid = (s, none) := by
  simp [State.process_chargeback, h]

theorem process_chargeback_not_disputed (s : State) (tid : TransactionId)
    (dt : Transaction) (h : AMap.find s.transactions tid = some dt)
    (hstate : dt.state ≠ TransactionState.Disputed) :
    State.process_chargeback s tid = (s, none) := by
  cases hdt : dt.state with
  | Disputed => exact absurd hdt hstate
  | Alive => simp [State.process_chargeback, h, hdt]
  | ChargedBack => simp [State.process_chargeback, h, hdt]

theorem process_chargeback_apply (s : State) (tid : TransactionId)
    (dt : Transaction) (X : FixedFloat) (a : AccountState)
    (h : AMap.find s.transactions tid = some dt)
    (hstate : dt.state = TransactionState.Disputed)
    (hamt : disputed_amount dt.inner tid = Except.ok X)
    (hacct : AMap.find s.accounts dt.client_id = some a) :
    State.process_chargeback s tid =
    ({ transactions := AMap.set s.transactions tid
         { dt with state := TransactionState.ChargedBack },
       accounts := AMap.set s.accounts dt.client_id
         { a with held := a.held - X, locked := true } },
     none) := by
  simp [State.process_chargeback, h, hstate, hamt, hacct]

theorem process_deposit_fresh (s : State) (txn : Transaction) (X : FixedFloat)
    (hfresh : AMap.find s.transactions txn.transaction_id = none) :
    State.process_deposit s txn X =
    ({ transactions := AMap.set s.transactions txn.transaction_id txn,
       accounts := AMap.set s.accounts txn.client_id
         { (AMap.find s.accounts txn.client_id).getD AccountState.default with
           available :=
             ((AMap.find s.accounts txn.client_id).getD
               AccountState.default).available + X } }, none) := by
  simp [State.process_deposit, State.cache_transaction, hfresh]

theorem process_deposit_dup (s : State) (txn : Transaction) (X : FixedFloat)
    (d : Transaction)
    (hdup : AMap.find s.transactions txn.transaction_id = some d) :
    State.process_deposit s txn X =
    ({ s with
       accounts := AMap.set s.accounts txn.client_id
         { (AMap.find s.accounts txn.client_id).getD AccountState.default with
           available :=
             ((AMap.find s.accounts txn.client_id).getD
               AccountState.default).available + X } },
     some (ProcessError.DuplicateTransactionId txn.transaction_id)) := by
  simp [State.process_deposit, State.cache_transaction, hdup]

/- Claim C4. -/

/-- C4, counterexample to the claim as stated: deposit 5.0 (id 1), withdraw
3.0 (id 2), then dispute id 2.  Before the dispute the account has
available 2.0; after it, available is 5.0 and held is -3.0 — disputing a
withdrawal of X increases `available` by X, it does not leave it
unchanged. -/
theorem claim4_counterexample :
    (runList State.default
      [Transaction.new 1 1 (TransactionInner.Deposit 50000),
       Transaction.new 2 1 (TransactionInner.Withdrawal 30000)]).map
      (fun s => AMap.find s.accounts 1) =
    Except.ok (some { available := 20000, held := 0, locked := false }) ∧
    (runList State.default
      [Transaction.new 1 1 (TransactionInner.Deposit 50000),
       Transaction.new 2 1 (TransactionInner.Withdrawal 30000),
       Transaction.new 2 1 TransactionInner.Dispute]).map
      (fun s => AMap.find s.accounts 1) =
    Except.ok (some { available := 50000, held := -30000, locked := false }) :=
  ⟨rfl, rfl⟩

/-- C4 (amended): for every applied Withdrawal of amount X whose record is
Alive (and whose client has an account), processing a Dispute referencing it
decreases `held` by X (so `held` can become negative) and increases
`available` by X, because the disputed amount is the negation of the
withdrawal's amount; the record becomes Disputed. -/
theorem claim4_dispute_withdrawal_amended (s : State) (tid : TransactionId)
    (cd : ClientId) (st : TransactionState) (dt : Transaction)
    (X : FixedFloat) (a : AccountState)
    (hfind : AMap.find s.transactions tid = some dt)
    (hinner : dt.inner = TransactionInner.Withdrawal X)
    (hstate : dt.state = TransactionState.Alive)
    (hacct : AMap.find s.accounts dt.client_id = some a) :
    State.process s
      { transaction_id := tid, client_id := cd,
        inner := TransactionInner.Dispute, state := st } =
    ({ transactions := AMap.set s.transactions tid
         { dt with state := TransactionState.Disputed },
       accounts := AMap.set s.accounts dt.client_id
         { a with available := a.available + X, held := a.held - X } },
     none) := by
  have hamt : disputed_amount dt.inner tid = Except.ok (-X) := by
    simp [disputed_amount, hinner]
  have h := process_dispute_apply s tid dt (-X) a hfind hstate hamt hacct
  simp only [State.process]
  rw [h]
  simp [sub_neg_eq_add, sub_eq_add_neg]

/-- C4 witness: the amended theorem applied at the concrete state reached by
deposit 5.0 / withdraw 3.0. -/
theorem claim4_witness :
    State.process
      { transactions :=
          [(1, Transaction.new 1 1 (TransactionInner.Deposit 50000)),
           (2, Transaction.new 2 1 (TransactionInner.Withdrawal 30000))],
        accounts := [(1, { available := 20000, held := 0, locked := false })] }
      { transaction_id := 2, client_id := 7,
        inner := TransactionInner.Dispute, state := TransactionState.Alive } =
    ({ transactions :=
         [(1, Transaction.new 1 1 (TransactionInner.Deposit 50000)),
          (2, { transaction_id := 2, client_id := 1,
                inner := TransactionInner.Withdrawal 30000,
                state := TransactionState.Disputed })],
       accounts := [(1, { available := 50000, held := -30000, locked := false })] },
     none) := by
  have h := claim4_dispute_withdrawal_amended
    { transactions :=
        [(1, Transaction.new 1 1 (TransactionInner.Deposit 50000)),
         (2, Transaction.new 2 1 (TransactionInner.Withdrawal 30000))],
      accounts := [(1, { available := 20000, held := 0, locked := false })] }
    2 7 TransactionState.Alive
    (Transaction.new 2 1 (TransactionInner.Withdrawal 30000)) 30000
    { available := 20000, held := 0, locked := false } rfl rfl rfl rfl
  exact h.trans (by decide)

/- Claim C3. -/

/-- A dispute followed by a resolve of the same Alive record restores the
exact pre-dispute state (the amount moved out of `available` moves back and
the record returns to `Alive`). -/
theorem dispute_resolve_restores (s : State) (tid : TransactionId)
    (dt : Transaction) (X : FixedFloat) (a : AccountState)
    (hfind : AMap.find s.transactions tid = some dt)
    (hstate : dt.state = TransactionState.Alive)
    (hamt : disputed_amount dt.inner tid = Except.ok X)
    (hacct : AMap.find s.accounts dt.client_id = some a) :
    State.process_resolve (State.process_dispute s tid).1 tid = (s, none) := by
  have hd := process_dispute_apply s tid dt X a hfind hstate hamt hacct
  rw [hd]
  have hfind2 : AMap.find (AMap.set s.transactions tid
      { dt with state := TransactionState.Disputed }) tid =
      some { dt with state := TransactionState.Disputed } :=
    AMap.find_set_self _ _ _
  have hacct2 : AMap.find (AMap.set s.accounts dt.client_id
      { a with available := a.available - X, held := a.held + X })
      dt.client_id =
      some { a with available := a.available - X, held := a.held + X } :=
    AMap.find_set_self _ _ _
  have hamt2 : disputed_amount
      ({ dt with state := TransactionState.Disputed } : Transaction).inner tid =
      Except.ok X := hamt
  have hr := process_resolve_apply
    { transactions := AMap.set s.transactions tid
        { dt with state := TransactionState.Disputed },
      accounts := AMap.set s.accounts dt.client_id
        { a with available := a.available - X, held := a.held + X } }
    tid { dt with state := TransactionState.Disputed } X
    { a with available := a.available - X, held := a.held + X }
    hfind2 rfl hamt2 hacct2
  rw [hr]
  have ht : { dt with state := TransactionState.Alive } = dt := by
    cases dt; simp_all
  have ha : { a with available := a.available - X + X, held := a.held + X - X } = a := by
    cases a; simp [Int.sub_add_cancel, Int.add_sub_cancel]
  simp only [Prod.mk.injEq]
  refine ⟨?_, trivial⟩
  simp [AMap.set_set, ht, ha, AMap.set_find_eq _ _ _ hfind,
    AMap.set_find_eq _ _ _ hacct]

/-- C3: disputing an applied Alive Deposit of amount X moves X from
`available` to `held` and marks the record Disputed; a subsequent Resolve
restores the exact pre-dispute state (balances back, record Alive); and a
second dispute-then-resolve cycle yields exactly the same post-state as
before the cycle. -/
theorem claim3_dispute_resolve_cycle (s : State) (tid : TransactionId)
    (cd : ClientId) (dt : Transaction) (X : FixedFloat) (a : AccountState)
    (hfind : AMap.find s.transactions tid = some dt)
    (hinner : dt.inner = TransactionInner.Deposit X)
    (hstate : dt.state = TransactionState.Alive)
    (hacct : AMap.find s.accounts dt.client_id = some a) :
    (State.process s (Transaction.new tid cd TransactionInner.Dispute)).2 = none ∧
    AMap.find
        (State.process s (Transaction.new tid cd TransactionInner.Dispute)).1.accounts
        dt.client_id =
      some { a with available := a.available - X, held := a.held + X } ∧
    AMap.find
        (State.process s (Transaction.new tid cd TransactionInner.Dispute)).1.transactions
        tid = some { dt with state := TransactionState.Disputed } ∧
    State.process (State.process s (Transaction.new tid cd TransactionInner.Dispute)).1
        (Transaction.new tid cd TransactionInner.Resolve) = (s, none) ∧
    State.process
        (State.process
          (State.process
            (State.process s (Transaction.new tid cd TransactionInner.Dispute)).1
            (Transaction.new tid cd TransactionInner.Resolve)).1
          (Transaction.new tid cd TransactionInner.Dispute)).1
        (Transaction.new tid cd TransactionInner.Resolve) =
      ((State.process
          (State.process s (Transaction.new tid cd TransactionInner.Dispute)).1
          (Transaction.new tid cd TransactionInner.Resolve)).1, none) := by
  have hamt : disputed_amount dt.inner tid = Except.ok X := by
    simp [disputed_amount, hinner]
  have hPd : ∀ u : State,
      State.process u (Transaction.new tid cd TransactionInner.Dispute) =
      State.process_dispute u tid := by
    intro u; simp [State.process, Transaction.new]
  have hPr : ∀ u : State,
      State.process u (Transaction.new tid cd TransactionInner.Resolve) =
      State.process_resolve u tid := by
    intro u; simp [State.process, Transaction.new]
  have hd := process_dispute_apply s tid dt X a hfind hstate hamt hacct
  have hres := dispute_resolve_restores s tid dt X a hfind hstate hamt hacct
  have hback : (State.process
      (State.process s (Transaction.new tid cd TransactionInner.Dispute)).1
      (Transaction.new tid cd TransactionInner.Resolve)).1 = s := by
    rw [hPr, hPd, hres]
  refine ⟨?_, ?_, ?_, ?_, ?_⟩
  · rw [hPd, hd]
  · rw [hPd, hd]
    exact AMap.find_set_self _ _ _
  · rw [hPd, hd]
    exact AMap.find_set_self _ _ _
  · rw [hPr, hPd]
    exact hres
  · rw [hback, hPr, hPd]
    exact hres

/-- C3 witness: the cycle theorem applied at the concrete state after one
deposit of 1.0, taking the conjunct that the dispute-then-resolve round trip
restores the state exactly. -/
theorem claim3_witness :
    State.process
      (State.process
        { transactions := [(1, Transaction.new 1 1 (TransactionInner.Deposit 10000))],
          accounts := [(1, { available := 10000, held := 0, locked := false })] }
        (Transaction.new 1 3 TransactionInner.Dispute)).1
      (Transaction.new 1 3 TransactionInner.Resolve) =
    ({ transactions := [(1, Transaction.new 1 1 (TransactionInner.Deposit 10000))],
       accounts := [(1, { available := 10000, held := 0, locked := false })] },
     none) :=
  (claim3_dispute_resolve_cycle
    { transactions := [(1, Transaction.new 1 1 (TransactionInner.Deposit 10000))],
      accounts := [(1, { available := 10000, held := 0, locked := false })] }
    1 3 (Transaction.new 1 1 (TransactionInner.Deposit 10000)) 10000
    { available := 10000, held := 0, locked := false } rfl rfl rfl rfl).2.2.2.1

/- Claim C5. -/

/-- C5: charging back a Disputed deposit of amount X decreases `held` by X,
sets `locked`, leaves `available` untouched, marks the record ChargedBack and
returns Ok; a subsequent Dispute of the now-ChargedBack record changes
nothing (state returned unchanged, no error). -/
theorem claim5_chargeback (s : State) (tid : TransactionId) (cd cd2 : ClientId)
    (dt : Transaction) (X : FixedFloat) (a : AccountState)
    (hfind : AMap.find s.transactions tid = some dt)
    (hinner : dt.inner = TransactionInner.Deposit X)
    (hstate : dt.state = TransactionState.Disputed)
    (hacct : AMap.find s.accounts dt.client_id = some a) :
    State.process s (Transaction.new tid cd TransactionInner.Chargeback) =
      ({ transactions := AMap.set s.transactions tid
           { dt with state := TransactionState.ChargedBack },
         accounts := AMap.set s.accounts dt.client_id
           { a with held := a.held - X, locked := true } }, none) ∧
    State.process
        (State.process s (Transaction.new tid cd TransactionInner.Chargeback)).1
        (Transaction.new tid cd2 TransactionInner.Dispute) =
      ((State.process s (Transaction.new tid cd TransactionInner.Chargeback)).1,
       none) := by
  have hamt : disputed_amount dt.inner tid = Except.ok X := by
    simp [disputed_amount, hinner]
  have hc := process_chargeback_apply s tid dt X a hfind hstate hamt hacct
  have hPc : State.process s (Transaction.new tid cd TransactionInner.Chargeback) =
      State.process_chargeback s tid := by
    simp [State.process, Transaction.new]
  constructor
  · rw [hPc]; exact hc
  · rw [hPc, hc]
    have hfind2 : AMap.find (AMap.set s.transactions tid
        { dt with state := TransactionState.ChargedBack }) tid =
        some { dt with state := TransactionState.ChargedBack } :=
      AMap.find_set_self _ _ _
    have hno := process_dispute_not_alive
      { transactions := AMap.set s.transactions tid
          { dt with state := TransactionState.ChargedBack },
        accounts := AMap.set s.accounts dt.client_id
          { a with held := a.held - X, locked := true } }
      tid { dt with state := TransactionState.ChargedBack } hfind2 (by simp)
    simpa [State.process, Transaction.new] using hno

/-- C5 witness: chargeback applied at the concrete state where deposit 1.0
(id 1, client 1) is under dispute. -/
theorem claim5_witness :
    State.process
      { transactions := [(1, { transaction_id := 1, client_id := 1,
                               inner := TransactionInner.Deposit 10000,
                               state := TransactionState.Disputed })],
        accounts := [(1, { available := 0, held := 10000, locked := false })] }
      (Transaction.new 1 4 TransactionInner.Chargeback) =
    ({ transactions := [(1, { transaction_id := 1, client_id := 1,
                              inner := TransactionInner.Deposit 10000,
                              state := TransactionState.ChargedBack })],
       accounts := [(1, { available := 0, held := 0, locked := true })] },
     none) := by
  have h := (claim5_chargeback
    { transactions := [(1, { transaction_id := 1, client_id := 1,
                             inner := TransactionInner.Deposit 10000,
                             state := TransactionState.Disputed })],
      accounts := [(1, { available := 0, held := 10000, locked := false })] }
    1 4 9
    { transaction_id := 1, client_id := 1,
      inner := TransactionInner.Deposit 10000,
      state := TransactionState.Disputed }
    10000 { available := 0, held := 10000, locked := false }
    rfl rfl rfl rfl).1
  exact h.trans (by decide)

/- Claim C9. -/

/-- The Dispute branch never reads the submitting transaction's client: any
client other than the referenced record's client keeps its account. -/
theorem process_dispute_accounts_frame (s : State) (tid : TransactionId)
    (c : ClientId)
    (h : ∀ dt, AMap.find s.transactions tid = some dt → c ≠ dt.client_id) :
    AMap.find (State.process_dispute s tid).1.accounts c =
    AMap.find s.accounts c := by
  rcases hf : AMap.find s.transactions tid with _ | dt
  · simp [State.process_dispute, hf]
  · have hc := h dt hf
    cases hst : dt.state with
    | Alive =>
      rcases ham : disputed_amount dt.inner tid with e | X
      · simp [State.process_dispute, hf, hst, ham]
      · rcases hac : AMap.find s.accounts dt.client_id with _ | a
        · simp [State.process_dispute, hf, hst, ham, hac]
        · simp [State.process_dispute, hf, hst, ham, hac,
            AMap.find_set_ne _ _ _ _ hc]
    | Disputed => simp [State.process_dispute, hf, hst]
    | ChargedBack => simp [State.process_dispute, hf, hst]

/-- Same frame fact for the Resolve branch. -/
theorem process_resolve_accounts_frame (s : State) (tid : TransactionId)
    (c : ClientId)
    (h : ∀ dt, AMap.find s.transactions tid = some dt → c ≠ dt.client_id) :
    AMap.find (State.process_resolve s tid).1.accounts c =
    AMap.find s.accounts c := by
  rcases hf : AMap.find s.transactions tid with _ | dt
  · simp [State.process_resolve, hf]
  · have hc := h dt hf
    cases hst : dt.state with
    | Disputed =>
      rcases ham : disputed_amount dt.inner tid with e | X
      · simp [State.process_resolve, hf, hst, ham]
      · rcases hac : AMap.find s.accounts dt.client_id with _ | a
        · simp [State.process_resolve, hf, hst, ham, hac]
        · simp [State.process_resolve, hf, hst, ham, hac,
            AMap.find_set_ne _ _ _ _ hc]
    | Alive => simp [State.process_resolve, hf, hst]
    | ChargedBack => simp [State.process_resolve, hf, hst]

/-- Same frame fact for the Chargeback branch. -/
theorem process_chargeback_accounts_frame (s : State) (tid : TransactionId)
    (c : ClientId)
    (h : ∀ dt, AMap.find s.transactions tid = some dt → c ≠ dt.client_id) :
    AMap.find (State.process_chargeback s tid).1.accounts c =
    AMap.find s.accounts c := by
  rcases hf : AMap.find s.transactions tid with _ | dt
  · simp [State.process_chargeback, hf]
  · have hc := h dt hf
    cases hst : dt.state with
    | Disputed =>
      rcases ham : disputed_amount dt.inner tid with e | X
      · simp [State.process_chargeback, hf, hst, ham]
      · rcases hac : AMap.find s.accounts dt.client_id with _ | a
        · simp [State.process_chargeback, hf, hst, ham, hac]
        · simp [State.process_chargeback, hf, hst, ham, hac,
            AMap.find_set_ne _ _ _ _ hc]
    | Alive => simp [State.process_chargeback, hf, hst]
    | ChargedBack => simp [State.process_chargeback, hf, hst]

/-- C9: two Dispute (resp. Resolve, Chargeback) transactions agreeing on
`transaction_id` but differing in `client_id` (and in the irrelevant `state`
field) produce identical results, and any client other than the referenced
record's client keeps its account untouched. -/
theorem claim9_client_independent (s : State) (tid : TransactionId)
    (c1 c2 : ClientId) (st1 st2 : TransactionState) (k : TransactionInner)
    (hk : k = TransactionInner.Dispute ∨ k = TransactionInner.Resolve ∨
          k = TransactionInner.Chargeback) :
    State.process s
        { transaction_id := tid, client_id := c1, inner := k, state := st1 } =
      State.process s
        { transaction_id := tid, client_id := c2, inner := k, state := st2 } ∧
    ∀ dt c, AMap.find s.transactions tid = some dt → c ≠ dt.client_id →
      AMap.find (State.process s
        { transaction_id := tid, client_id := c1, inner := k,
          state := st1 }).1.accounts c =
      AMap.find s.accounts c := by
  rcases hk with hk | hk | hk <;> subst hk
  · exact ⟨by simp [State.process], fun dt c hf hc =>
      by simpa [State.process] using
        process_dispute_accounts_frame s tid c
          (fun dt2 hf2 => by rw [hf] at hf2; cases hf2; exact hc)⟩
  · exact ⟨by simp [State.process], fun dt c hf hc =>
      by simpa [State.process] using
        process_resolve_accounts_frame s tid c
          (fun dt2 hf2 => by rw [hf] at hf2; cases hf2; exact hc)⟩
  · exact ⟨by simp [State.process], fun dt c hf hc =>
      by simpa [State.process] using
        process_chargeback_accounts_frame s tid c
          (fun dt2 hf2 => by rw [hf] at hf2; cases hf2; exact hc)⟩

/-- C9 witness: on the state holding deposit 1.0 for client 1, a dispute of
id 1 submitted under client 2 equals one submitted under client 3. -/
theorem claim9_witness :
    State.process
      { transactions := [(1, Transaction.new 1 1 (TransactionInner.Deposit 10000))],
        accounts := [(1, { available := 10000, held := 0, locked := false })] }
      { transaction_id := 1, client_id := 2, inner := TransactionInner.Dispute,
        state := TransactionState.Alive } =
    State.process
      { transactions := [(1, Transaction.new 1 1 (TransactionInner.Deposit 10000))],
        accounts := [(1, { available := 10000, held := 0, locked := false })] }
      { transaction_id := 1, client_id := 3, inner := TransactionInner.Dispute,
        state := TransactionState.Alive } :=
  (claim9_client_independent
    { transactions := [(1, Transaction.new 1 1 (TransactionInner.Deposit 10000))],
      accounts := [(1, { available := 10000, held := 0, locked := false })] }
    1 2 3 TransactionState.Alive TransactionState.Alive
    TransactionInner.Dispute (Or.inl rfl)).1

/- Claim C1. -/

/-- After any `process` step the history map is unchanged, extended at the
transaction's own (previously unbound) id, or updated at that id by a single
allowed lifecycle move. -/
theorem process_transactions_shape (s : State) (txn : Transaction) :
    (State.process s txn).1.transactions = s.transactions ∨
    (AMap.find s.transactions txn.transaction_id = none ∧
     ((∃ X, txn.inner = TransactionInner.Deposit X) ∨
      (∃ X, txn.inner = TransactionInner.Withdrawal X)) ∧
     (AMap.find (State.process s txn).1.accounts txn.client_id).isSome ∧
     (State.process s txn).1.transactions =
       AMap.set s.transactions txn.transaction_id txn) ∨
    (∃ dt st2, AMap.find s.transactions txn.transaction_id = some dt ∧
       lifecycle_step dt.state st2 = true ∧
       (State.process s txn).1.transactions =
         AMap.set s.transactions txn.transaction_id
           { dt with state := st2 }) := by
  cases hinner : txn.inner with
  | Deposit X =>
    rcases hf : AMap.find s.transactions txn.transaction_id with _ | d
    · right; left
      refine ⟨rfl, Or.inl ⟨X, rfl⟩, ?_, ?_⟩
      · simp [State.process, hinner, process_deposit_fresh s txn X hf,
          AMap.find_set_self]
      · simp [State.process, hinner, process_deposit_fresh s txn X hf]
    · left
      simp [State.process, hinner, process_deposit_dup s txn X d hf]
  | Withdrawal X =>
    by_cases hl : ((AMap.find s.accounts txn.client_id).getD
        AccountState.default).locked = true
    · left
      simp [State.process, hinner, State.process_withdrawal, hl]
    · rcases hf : AMap.find s.transactions txn.transaction_id with _ | d
      · right; left
        refine ⟨rfl, Or.inr ⟨X, rfl⟩, ?_, ?_⟩
        · simp [State.process, hinner, State.process_withdrawal, hl,
            State.cache_transaction, hf, AMap.find_set_self]
        · simp [State.process, hinner, State.process_withdrawal, hl,
            State.cache_transaction, hf]
      · left
        simp [State.process, hinner, State.process_withdrawal, hl,
          State.cache_transaction, hf]
  | Dispute =>
    rcases hf : AMap.find s.transactions txn.transaction_id with _ | dt
    · left; simp [State.process, hinner, State.process_dispute, hf]
    · cases hst : dt.state with
      | Alive =>
        rcases ham : disputed_amount dt.inner txn.transaction_id with e | X
        · left; simp [State.process, hinner, State.process_dispute, hf, hst, ham]
        · rcases hac : AMap.find s.accounts dt.client_id with _ | a
          · left
            simp [State.process, hinner, State.process_dispute, hf, hst, ham, hac]
          · right; right
            refine ⟨dt, TransactionState.Disputed, rfl, by rw [hst]; rfl, ?_⟩
            simp [State.process, hinner, State.process_dispute, hf, hst, ham, hac]
      | Disputed =>
        left; simp [State.process, hinner, State.process_dispute, hf, hst]
      | ChargedBack =>
        left; simp [State.process, hinner, State.process_dispute, hf, hst]
  | Resolve =>
    rcases hf : AMap.find s.transactions txn.transaction_id with _ | dt
    · left; simp [State.process, hinner, State.process_resolve, hf]
    · cases hst : dt.state with
      | Disputed =>
        rcases ham : disputed_amount dt.inner txn.transaction_id with e | X
        · left; simp [State.process, hinner, State.process_resolve, hf, hst, ham]
        · rcases hac : AMap.find s.accounts dt.client_id with _ | a
          · left
            simp [State.process, hinner, State.process_resolve, hf, hst, ham, hac]
          · right; right
            refine ⟨dt, TransactionState.Alive, rfl, by rw [hst]; rfl, ?_⟩
            simp [State.process, hinner, State.process_resolve, hf, hst, ham, hac]
      | Alive =>
        left; simp [State.process, hinner, State.process_resolve, hf, hst]
      | ChargedBack =>
        left; simp [State.process, hinner, State.process_resolve, hf, hst]
  | Chargeback =>
    rcases hf : AMap.find s.transactions txn.transaction_id with _ | dt
    · left; simp [State.process, hinner, State.process_chargeback, hf]
    · cases hst : dt.state with
      | Disputed =>
        rcases ham : disputed_amount dt.inner txn.transaction_id with e | X
        · left
          simp [State.process, hinner, State.process_chargeback, hf, hst, ham]
        · rcases hac : AMap.find s.accounts dt.client_id with _ | a
          · left
            simp [State.process, hinner, State.process_chargeback, hf, hst, ham,
              hac]
          · right; right
            refine ⟨dt, TransactionState.ChargedBack, rfl, by rw [hst]; rfl, ?_⟩
            simp [State.process, hinner, State.process_chargeback, hf, hst, ham,
              hac]
      | Alive =>
        left; simp [State.process, hinner, State.process_chargeback, hf, hst]
      | ChargedBack =>
        left; simp [State.process, hinner, State.process_chargeback, hf, hst]

/-- C1: a stored record's `lifecycle_state` only ever moves along
`Alive → Disputed → (Alive or ChargedBack)` at each `process` step; a
Dispute of a non-Alive record, and a Resolve or Chargeback of a non-Disputed
record, return the state completely unchanged with Ok; and a ChargedBack
record is never changed again by any transaction. -/
theorem claim1_lifecycle (s : State) (txn : Transaction) (id : TransactionId)
    (dt : Transaction)
    (hfind : AMap.find s.transactions id = some dt) :
    (∀ dt', AMap.find (State.process s txn).1.transactions id = some dt' →
        lifecycle_step dt.state dt'.state = true) ∧
    (txn.inner = TransactionInner.Dispute → txn.transaction_id = id →
        dt.state ≠ TransactionState.Alive → State.process s txn = (s, none)) ∧
    ((txn.inner = TransactionInner.Resolve ∨
        txn.inner = TransactionInner.Chargeback) →
        txn.transaction_id = id → dt.state ≠ TransactionState.Disputed →
        State.process s txn = (s, none)) ∧
    (dt.state = TransactionState.ChargedBack →
        AMap.find (State.process s txn).1.transactions id = some dt) := by
  have hrefl : ∀ a, lifecycle_step a a = true := by
    intro a; cases a <;> rfl
  have hcbstep : ∀ b, lifecycle_step TransactionState.ChargedBack b = true →
      b = TransactionState.ChargedBack := by
    intro b; cases b <;> simp [lifecycle_step]
  refine ⟨?_, ?_, ?_, ?_⟩
  · intro dt' h'
    rcases process_transactions_shape s txn with heq | ⟨hnone, hkw, haw, heq⟩ |
      ⟨dt0, st2, hf0, hstep, heq⟩
    · rw [heq, hfind] at h'; cases h'; exact hrefl _
    · by_cases hid : id = txn.transaction_id
      · subst hid; rw [hfind] at hnone; exact Option.noConfusion hnone
      · rw [heq, AMap.find_set_ne _ _ _ _ hid, hfind] at h'
        cases h'; exact hrefl _
    · by_cases hid : id = txn.transaction_id
      · subst hid
        have hdt0 : dt = dt0 := by
          rw [hfind] at hf0; exact Option.some.inj hf0
        rw [heq, AMap.find_set_self] at h'
        cases h'
        simpa [hdt0] using hstep
      · rw [heq, AMap.find_set_ne _ _ _ _ hid, hfind] at h'
        cases h'; exact hrefl _
  · intro hinner htid hstate
    subst htid
    have h1 : State.process s txn = State.process_dispute s txn.transaction_id := by
      simp [State.process, hinner]
    rw [h1]
    exact process_dispute_not_alive _ _ dt hfind hstate
  · intro hk htid hstate
    subst htid
    rcases hk with hinner | hinner
    · have h1 : State.process s txn =
          State.process_resolve s txn.transaction_id := by
        simp [State.process, hinner]
      rw [h1]
      exact process_resolve_not_disputed _ _ dt hfind hstate
    · have h1 : State.process s txn =
          State.process_chargeback s txn.transaction_id := by
        simp [State.process, hinner]
      rw [h1]
      exact process_chargeback_not_disputed _ _ dt hfind hstate
  · intro hcb
    rcases process_transactions_shape s txn with heq | ⟨hnone, hkw, haw, heq⟩ |
      ⟨dt0, st2, hf0, hstep, heq⟩
    · rw [heq]; exact hfind
    · by_cases hid : id = txn.transaction_id
      · subst hid; rw [hfind] at hnone; exact Option.noConfusion hnone
      · rw [heq, AMap.find_set_ne _ _ _ _ hid]; exact hfind
    · by_cases hid : id = txn.transaction_id
      · subst hid
        have hdt0 : dt = dt0 := by
          rw [hfind] at hf0; exact Option.some.inj hf0
        subst hdt0
        have hst2 : st2 = TransactionState.ChargedBack :=
          hcbstep st2 (by rw [← hcb]; exact hstep)
        subst hst2
        rw [heq, AMap.find_set_self]
        have : { dt with state := TransactionState.ChargedBack } = dt := by
          cases dt; simp_all
        rw [this]
      · rw [heq, AMap.find_set_ne _ _ _ _ hid]; exact hfind

/-- C1 witness: on a state holding a ChargedBack deposit record, a further
Dispute of that id leaves the record exactly as it was. -/
theorem claim1_witness :
    AMap.find
      (State.process
        { transactions := [(1, { transaction_id := 1, client_id := 1,
                                 inner := TransactionInner.Deposit 10000,
                                 state := TransactionState.ChargedBack })],
          accounts := [(1, { available := 0, held := 0, locked := true })] }
        (Transaction.new 1 1 TransactionInner.Dispute)).1.transactions 1 =
    some { transaction_id := 1, client_id := 1,
           inner := TransactionInner.Deposit 10000,
           state := TransactionState.ChargedBack } :=
  (claim1_lifecycle
    { transactions := [(1, { transaction_id := 1, client_id := 1,
                             inner := TransactionInner.Deposit 10000,
                             state := TransactionState.ChargedBack })],
      accounts := [(1, { available := 0, held := 0, locked := true })] }
    (Transaction.new 1 1 TransactionInner.Dispute) 1
    { transaction_id := 1, client_id := 1,
      inner := TransactionInner.Deposit 10000,
      state := TransactionState.ChargedBack }
    rfl).2.2.2 rfl

/- Claim C2. -/

/-- C2, counterexample to the claim as stated: the account of client 1 is
unlocked with available 5.0 ≥ 3.0, yet the withdrawal reusing id 1 is NOT
cached with lifecycle_state Alive — the history still holds the original
deposit, a `DuplicateTransactionId` error is returned, and the balance
change is kept. -/
theorem claim2_counterexample :
    State.process
      { transactions := [(1, Transaction.new 1 1 (TransactionInner.Deposit 50000))],
        accounts := [(1, { available := 50000, held := 0, locked := false })] }
      (Transaction.new 1 1 (TransactionInner.Withdrawal 30000)) =
    ({ transactions := [(1, Transaction.new 1 1 (TransactionInner.Deposit 50000))],
       accounts := [(1, { available := 20000, held := 0, locked := false })] },
     some (ProcessError.DuplicateTransactionId 1)) := by
  decide

/-- C2 (amended): for a Withdrawal, writing `acct` for the fetched-or-created
account: when `acct` is locked, `process` returns Ok with the state fully
unchanged (no balance change, no history record, even when the id already
exists); when unlocked with a fresh id and `available ≥ amount` the amount is
subtracted and the transaction is cached Alive; when unlocked with a fresh id
and `available < amount` balances are kept and the transaction is still
cached Alive; when unlocked but the id is already in history, the balance
effect still applies but nothing is cached and `DuplicateTransactionId` is
returned. -/
theorem claim2_withdrawal_amended (s : State) (tid : TransactionId)
    (c : ClientId) (X : FixedFloat) :
    (((AMap.find s.accounts c).getD AccountState.default).locked = true →
      State.process s (Transaction.new tid c (TransactionInner.Withdrawal X)) =
        (s, none)) ∧
    (((AMap.find s.accounts c).getD AccountState.default).locked = false →
      AMap.find s.transactions tid = none →
      X ≤ ((AMap.find s.accounts c).getD AccountState.default).available →
      State.process s (Transaction.new tid c (TransactionInner.Withdrawal X)) =
        ({ transactions := AMap.set s.transactions tid
             (Transaction.new tid c (TransactionInner.Withdrawal X)),
           accounts := AMap.set s.accounts c
             { (AMap.find s.accounts c).getD AccountState.default with
               available := ((AMap.find s.accounts c).getD
                 AccountState.default).available - X } }, none)) ∧
    (((AMap.find s.accounts c).getD AccountState.default).locked = false →
      AMap.find s.transactions tid = none →
      ¬ X ≤ ((AMap.find s.accounts c).getD AccountState.default).available →
      State.process s (Transaction.new tid c (TransactionInner.Withdrawal X)) =
        ({ transactions := AMap.set s.transactions tid
             (Transaction.new tid c (TransactionInner.Withdrawal X)),
           accounts := AMap.set s.accounts c
             ((AMap.find s.accounts c).getD AccountState.default) }, none)) ∧
    (∀ d, ((AMap.find s.accounts c).getD AccountState.default).locked = false →
      AMap.find s.transactions tid = some d →
      X ≤ ((AMap.find s.accounts c).getD AccountState.default).available →
      State.process s (Transaction.new tid c (TransactionInner.Withdrawal X)) =
        ({ transactions := s.transactions,
           accounts := AMap.set s.accounts c
             { (AMap.find s.accounts c).getD AccountState.default with
               available := ((AMap.find s.accounts c).getD
                 AccountState.default).available - X } },
         some (ProcessError.DuplicateTransactionId tid))) ∧
    (∀ d, ((AMap.find s.accounts c).getD AccountState.default).locked = false →
      AMap.find s.transactions tid = some d →
      ¬ X ≤ ((AMap.find s.accounts c).getD AccountState.default).available →
      State.process s (Transaction.new tid c (TransactionInner.Withdrawal X)) =
        ({ transactions := s.transactions,
           accounts := AMap.set s.accounts c
             ((AMap.find s.accounts c).getD AccountState.default) },
         some (ProcessError.DuplicateTransactionId tid))) := by
  refine ⟨?_, ?_, ?_, ?_, ?_⟩
  · intro hl
    rcases hac : AMap.find s.accounts c with _ | a
    · rw [hac] at hl
      simp [AccountState.default] at hl
    · rw [hac] at hl
      simp only [Option.getD_some] at hl
      simp [State.process, Transaction.new, State.process_withdrawal, hac, hl,
        AMap.set_find_eq _ _ _ hac]
  · intro hl hfresh hs
    simp [State.process, Transaction.new, State.process_withdrawal, hl, hs,
      State.cache_transaction, hfresh, AMap.set_set]
  · intro hl hfresh hs
    simp [State.process, Transaction.new, State.process_withdrawal, hl, hs,
      State.cache_transaction, hfresh, AMap.set_set]
  · intro d hl hdup hs
    simp [State.process, Transaction.new, State.process_withdrawal, hl, hs,
      State.cache_transaction, hdup, AMap.set_set]
  · intro d hl hdup hs
    simp [State.process, Transaction.new, State.process_withdrawal, hl, hs,
      State.cache_transaction, hdup, AMap.set_set]

/-- C2 witness: the unlocked, fresh-id, sufficient-funds clause applied at a
concrete account with 5.0 available withdrawing 3.0. -/
theorem claim2_witness :
    State.process
      { transactions := [],
        accounts := [(1, { available := 50000, held := 0, locked := false })] }
      (Transaction.new 7 1 (TransactionInner.Withdrawal 30000)) =
    ({ transactions := [(7, Transaction.new 7 1 (TransactionInner.Withdrawal 30000))],
       accounts := [(1, { available := 20000, held := 0, locked := false })] },
     none) := by
  have h := (claim2_withdrawal_amended
    { transactions := [],
      accounts := [(1, { available := 50000, held := 0, locked := false })] }
    7 1 30000).2.1 rfl rfl (by decide)
  exact h.trans (by decide)

/- Claim C6. -/

/-- C6: the first Deposit under a fresh id succeeds; a second Deposit reusing
the id fails with `DuplicateTransactionId`, and the driver loop then aborts
the whole run whatever transactions follow; in general caching a Deposit, or
a Withdrawal against an unlocked account, whose id is already in history
returns `DuplicateTransactionId` rather than Ok. -/
theorem claim6_duplicate_id (tid : TransactionId) (c1 c2 : ClientId)
    (X1 X2 : FixedFloat) :
    (State.process State.default
        (Transaction.new tid c1 (TransactionInner.Deposit X1))).2 = none ∧
    (State.process
        (State.process State.default
          (Transaction.new tid c1 (TransactionInner.Deposit X1))).1
        (Transaction.new tid c2 (TransactionInner.Deposit X2))).2 =
      some (ProcessError.DuplicateTransactionId tid) ∧
    (∀ rest, runList State.default
        (Transaction.new tid c1 (TransactionInner.Deposit X1) ::
         Transaction.new tid c2 (TransactionInner.Deposit X2) :: rest) =
      Except.error (ProcessError.DuplicateTransactionId tid)) ∧
    (∀ s txn d X, AMap.find s.transactions txn.transaction_id = some d →
      (txn.inner = TransactionInner.Deposit X ∨
        (txn.inner = TransactionInner.Withdrawal X ∧
         ((AMap.find s.accounts txn.client_id).getD
            AccountState.default).locked = false)) →
      (State.process s txn).2 =
        some (ProcessError.DuplicateTransactionId txn.transaction_id)) := by
  refine ⟨?_, ?_, ?_, ?_⟩
  · simp [State.process, Transaction.new, State.process_deposit,
      State.cache_transaction, State.default, AMap.find, AMap.set]
  · simp [State.process, Transaction.new, State.process_deposit,
      State.cache_transaction, State.default, AMap.find, AMap.set]
  · intro rest
    simp [runList, State.process, Transaction.new, State.process_deposit,
      State.cache_transaction, State.default, AMap.find, AMap.set]
  · intro s txn d X hdup hk
    rcases hk with hk | ⟨hk, hl⟩
    · have hP : State.process s txn = State.process_deposit s txn X := by
        simp [State.process, hk]
      rw [hP, process_deposit_dup s txn X d hdup]
    · have hP : State.process s txn = State.process_withdrawal s txn X := by
        simp [State.process, hk]
      rw [hP]
      simp [State.process_withdrawal, hl, State.cache_transaction, hdup]

/-- C6 witness: the general duplicate-cache clause applied to a concrete
second deposit reusing id 1. -/
theorem claim6_witness :
    (State.process
      { transactions := [(1, Transaction.new 1 1 (TransactionInner.Deposit 10000))],
        accounts := [(1, { available := 10000, held := 0, locked := false })] }
      (Transaction.new 1 1 (TransactionInner.Deposit 20000))).2 =
    some (ProcessError.DuplicateTransactionId 1) :=
  (claim6_duplicate_id 1 1 1 10000 20000).2.2.2
    { transactions := [(1, Transaction.new 1 1 (TransactionInner.Deposit 10000))],
      accounts := [(1, { available := 10000, held := 0, locked := false })] }
    (Transaction.new 1 1 (TransactionInner.Deposit 20000))
    (Transaction.new 1 1 (TransactionInner.Deposit 10000)) 20000
    rfl (Or.inl rfl)

/- Claim C7. -/

/-- When the Dispute branch reports an error it has not yet mutated
anything. -/
theorem process_dispute_error_id (s : State) (tid : TransactionId)
    (e : ProcessError) (he : (State.process_dispute s tid).2 = some e) :
    (State.process_dispute s tid).1 = s := by
  rcases hf : AMap.find s.transactions tid with _ | dt
  · simp [State.process_dispute, hf]
  · cases hst : dt.state with
    | Alive =>
      rcases ham : disputed_amount dt.inner tid with e2 | X
      · simp [State.process_dispute, hf, hst, ham]
      · rcases hac : AMap.find s.accounts dt.client_id with _ | a
        · simp [State.process_dispute, hf, hst, ham, hac]
        · rw [process_dispute_apply s tid dt X a hf hst ham hac] at he
          exact Option.noConfusion he
    | Disputed => simp [State.process_dispute, hf, hst]
    | ChargedBack => simp [State.process_dispute, hf, hst]

/-- When the Resolve branch reports an error it has not yet mutated
anything. -/
theorem process_resolve_error_id (s : State) (tid : TransactionId)
    (e : ProcessError) (he : (State.process_resolve s tid).2 = some e) :
    (State.process_resolve s tid).1 = s := by
  rcases hf : AMap.find s.transactions tid with _ | dt
  · simp [State.process_resolve, hf]
  · cases hst : dt.state with
    | Disputed =>
      rcases ham : disputed_amount dt.inner tid with e2 | X
      · simp [State.process_resolve, hf, hst, ham]
      · rcases hac : AMap.find s.accounts dt.client_id with _ | a
        · simp [State.process_resolve, hf, hst, ham, hac]
        · rw [process_resolve_apply s tid dt X a hf hst ham hac] at he
          exact Option.noConfusion he
    | Alive => simp [State.process_resolve, hf, hst]
    | ChargedBack => simp [State.process_resolve, hf, hst]

/-- When the Chargeback branch reports an error it has not yet mutated
anything. -/
theorem process_chargeback_error_id (s : State) (tid : TransactionId)
    (e : ProcessError) (he : (State.process_chargeback s tid).2 = some e) :
    (State.process_chargeback s tid).1 = s := by
  rcases hf : AMap.find s.transactions tid with _ | dt
  · simp [State.process_chargeback, hf]
  · cases hst : dt.state with
    | Disputed =>
      rcases ham : disputed_amount dt.inner tid with e2 | X
      · simp [State.process_chargeback, hf, hst, ham]
      · rcases hac : AMap.find s.accounts dt.client_id with _ | a
        · simp [State.process_chargeback, hf, hst, ham, hac]
        · rw [process_chargeback_apply s tid dt X a hf hst ham hac] at he
          exact Option.noConfusion he
    | Alive => simp [State.process_chargeback, hf, hst]
    | ChargedBack => simp [State.process_chargeback, hf, hst]

/-- C7, counterexample to the claim as stated: a second Deposit of 7.0
reusing id 1 returns `DuplicateTransactionId` but the client's available
balance has already been increased from 5.0 to 12.0 — processing is not
transactional. -/
theorem claim7_counterexample :
    State.process
      { transactions := [(1, Transaction.new 1 1 (TransactionInner.Deposit 50000))],
        accounts := [(1, { available := 50000, held := 0, locked := false })] }
      (Transaction.new 1 1 (TransactionInner.Deposit 70000)) =
    ({ transactions := [(1, Transaction.new 1 1 (TransactionInner.Deposit 50000))],
       accounts := [(1, { available := 120000, held := 0, locked := false })] },
     some (ProcessError.DuplicateTransactionId 1)) := by
  decide

/-- C7 (amended): when `process` returns an error the history map is always
exactly as before; for Dispute/Resolve/Chargeback the whole state is exactly
as before; but a Deposit failing with `DuplicateTransactionId` keeps its
balance mutation — the client's available ends up increased by the deposited
amount (and an unlocked Withdrawal likewise keeps its balance effect). -/
theorem claim7_error_frame_amended (s : State) (txn : Transaction)
    (e : ProcessError) (he : (State.process s txn).2 = some e) :
    (State.process s txn).1.transactions = s.transactions ∧
    ((txn.inner = TransactionInner.Dispute ∨
      txn.inner = TransactionInner.Resolve ∨
      txn.inner = TransactionInner.Chargeback) →
      (State.process s txn).1 = s) ∧
    (∀ X, txn.inner = TransactionInner.Deposit X →
      AMap.find (State.process s txn).1.accounts txn.client_id =
        some { (AMap.find s.accounts txn.client_id).getD AccountState.default with
               available := ((AMap.find s.accounts txn.client_id).getD
                 AccountState.default).available + X }) := by
  cases hinner : txn.inner with
  | Deposit X =>
    have hP : State.process s txn = State.process_deposit s txn X := by
      simp [State.process, hinner]
    rcases hf : AMap.find s.transactions txn.transaction_id with _ | d
    · rw [hP, process_deposit_fresh s txn X hf] at he
      exact absurd he (by simp)
    · have hd := process_deposit_dup s txn X d hf
      refine ⟨by rw [hP, hd], ?_, ?_⟩
      · intro hdisj
        rcases hdisj with h | h | h <;> exact TransactionInner.noConfusion h
      · intro X2 hX2
        have hXX : X = X2 := TransactionInner.Deposit.inj hX2
        subst hXX
        rw [hP, hd]
        exact AMap.find_set_self _ _ _
  | Withdrawal X =>
    have hP : State.process s txn = State.process_withdrawal s txn X := by
      simp [State.process, hinner]
    by_cases hl : ((AMap.find s.accounts txn.client_id).getD
        AccountState.default).locked = true
    · rw [hP] at he
      simp [State.process_withdrawal, hl] at he
    · rcases hf : AMap.find s.transactions txn.transaction_id with _ | d
      · rw [hP] at he
        simp [State.process_withdrawal, hl, State.cache_transaction, hf] at he
      · refine ⟨?_, ?_, ?_⟩
        · rw [hP]
          simp [State.process_withdrawal, hl, State.cache_transaction, hf]
        · intro hdisj
          rcases hdisj with h | h | h <;> exact TransactionInner.noConfusion h
        · intro X2 hX2
          exact TransactionInner.noConfusion hX2
  | Dispute =>
    have hP : State.process s txn = State.process_dispute s txn.transaction_id := by
      simp [State.process, hinner]
    rw [hP] at he ⊢
    have hid := process_dispute_error_id s txn.transaction_id e he
    exact ⟨by rw [hid], fun _ => hid,
      fun X2 hX2 => TransactionInner.noConfusion hX2⟩
  | Resolve =>
    have hP : State.process s txn = State.process_resolve s txn.transaction_id := by
      simp [State.process, hinner]
    rw [hP] at he ⊢
    have hid := process_resolve_error_id s txn.transaction_id e he
    exact ⟨by rw [hid], fun _ => hid,
      fun X2 hX2 => TransactionInner.noConfusion hX2⟩
  | Chargeback =>
    have hP : State.process s txn =
        State.process_chargeback s txn.transaction_id := by
      simp [State.process, hinner]
    rw [hP] at he ⊢
    have hid := process_chargeback_error_id s txn.transaction_id e he
    exact ⟨by rw [hid], fun _ => hid,
      fun X2 hX2 => TransactionInner.noConfusion hX2⟩

/-- C7 witness: the amended error-frame theorem applied to the concrete
duplicate deposit, taking the history-unchanged conjunct. -/
theorem claim7_witness :
    (State.process
      { transactions := [(1, Transaction.new 1 1 (TransactionInner.Deposit 50000))],
        accounts := [(1, { available := 50000, held := 0, locked := false })] }
      (Transaction.new 1 1 (TransactionInner.Deposit 70000))).1.transactions =
    [(1, Transaction.new 1 1 (TransactionInner.Deposit 50000))] :=
  (claim7_error_frame_amended
    { transactions := [(1, Transaction.new 1 1 (TransactionInner.Deposit 50000))],
      accounts := [(1, { available := 50000, held := 0, locked := false })] }
    (Transaction.new 1 1 (TransactionInner.Deposit 70000))
    (ProcessError.DuplicateTransactionId 1) (by decide)).1

/- Claim C10. -/

/-- C10: each `process` call touches at most one account — the submitting
client for Deposit/Withdrawal (created default if absent), the referenced
record's client for the dispute family — and at most one history entry — the
entry keyed by the transaction's own id, created for Deposit/Withdrawal or
mutated only in its `lifecycle_state` for the dispute family, which never
creates entries; every other account and history record is untouched. -/
theorem claim10_frame (s : State) (txn : Transaction) :
    (∀ i, i ≠ txn.transaction_id →
      AMap.find (State.process s txn).1.transactions i =
        AMap.find s.transactions i) ∧
    (∀ dt dt', AMap.find s.transactions txn.transaction_id = some dt →
      AMap.find (State.process s txn).1.transactions txn.transaction_id =
        some dt' →
      dt'.transaction_id = dt.transaction_id ∧ dt'.client_id = dt.client_id ∧
        dt'.inner = dt.inner) ∧
    ((txn.inner = TransactionInner.Dispute ∨
        txn.inner = TransactionInner.Resolve ∨
        txn.inner = TransactionInner.Chargeback) →
      AMap.find s.transactions txn.transaction_id = none →
      State.process s txn = (s, none)) ∧
    (∀ X, (txn.inner = TransactionInner.Deposit X ∨
        txn.inner = TransactionInner.Withdrawal X) →
      ∀ c, c ≠ txn.client_id →
        AMap.find (State.process s txn).1.accounts c =
          AMap.find s.accounts c) ∧
    ((txn.inner = TransactionInner.Dispute ∨
        txn.inner = TransactionInner.Resolve ∨
        txn.inner = TransactionInner.Chargeback) →
      ∀ c, (∀ dt, AMap.find s.transactions txn.transaction_id = some dt →
          c ≠ dt.client_id) →
        AMap.find (State.process s txn).1.accounts c =
          AMap.find s.accounts c) ∧
    (∀ X, txn.inner = TransactionInner.Deposit X →
      AMap.find s.accounts txn.client_id = none →
      AMap.find (State.process s txn).1.accounts txn.client_id =
        some { AccountState.default with
               available := AccountState.default.available + X }) ∧
    (∀ X, txn.inner = TransactionInner.Withdrawal X →
      (AMap.find (State.process s txn).1.accounts txn.client_id).isSome) := by
  refine ⟨?_, ?_, ?_, ?_, ?_, ?_, ?_⟩
  · intro i hi
    rcases process_transactions_shape s txn with heq | ⟨hnone, hkw, haw, heq⟩ |
      ⟨dt0, st2, hf0, hstep, heq⟩
    · rw [heq]
    · rw [heq, AMap.find_set_ne _ _ _ _ hi]
    · rw [heq, AMap.find_set_ne _ _ _ _ hi]
  · intro dt dt' hdt hdt'
    rcases process_transactions_shape s txn with heq | ⟨hnone, hkw, haw, heq⟩ |
      ⟨dt0, st2, hf0, hstep, heq⟩
    · rw [heq, hdt] at hdt'
      cases hdt'
      exact ⟨rfl, rfl, rfl⟩
    · rw [hdt] at hnone
      exact Option.noConfusion hnone
    · rw [hdt] at hf0
      have h0 : dt = dt0 := Option.some.inj hf0
      subst h0
      rw [heq, AMap.find_set_self] at hdt'
      cases hdt'
      exact ⟨rfl, rfl, rfl⟩
  · intro hk hnone
    rcases hk with hk | hk | hk
    · have hP : State.process s txn =
          State.process_dispute s txn.transaction_id := by
        simp [State.process, hk]
      rw [hP]
      exact process_dispute_missing _ _ hnone
    · have hP : State.process s txn =
          State.process_resolve s txn.transaction_id := by
        simp [State.process, hk]
      rw [hP]
      exact process_resolve_missing _ _ hnone
    · have hP : State.process s txn =
          State.process_chargeback s txn.transaction_id := by
        simp [State.process, hk]
      rw [hP]
      exact process_chargeback_missing _ _ hnone
  · intro X hk c hc
    rcases hk with hk | hk
    · have hP : State.process s txn = State.process_deposit s txn X := by
        simp [State.process, hk]
      rw [hP]
      rcases hf : AMap.find s.transactions txn.transaction_id with _ | d
      · rw [process_deposit_fresh s txn X hf]
        exact AMap.find_set_ne _ _ _ _ hc
      · rw [process_deposit_dup s txn X d hf]
        exact AMap.find_set_ne _ _ _ _ hc
    · have hP : State.process s txn = State.process_withdrawal s txn X := by
        simp [State.process, hk]
      rw [hP]
      by_cases hl : ((AMap.find s.accounts txn.client_id).getD
          AccountState.default).locked = true
      · simp [State.process_withdrawal, hl, AMap.find_set_ne _ _ _ _ hc]
      · rcases hf : AMap.find s.transactions txn.transaction_id with _ | d
        · simp [State.process_withdrawal, hl, State.cache_transaction, hf,
            AMap.find_set_ne _ _ _ _ hc]
        · simp [State.process_withdrawal, hl, State.cache_transaction, hf,
            AMap.find_set_ne _ _ _ _ hc]
  · intro hk c hc
    rcases hk with hk | hk | hk
    · have hP : State.process s txn =
          State.process_dispute s txn.transaction_id := by
        simp [State.process, hk]
      rw [hP]
      exact process_dispute_accounts_frame s _ c hc
    · have hP : State.process s txn =
          State.process_resolve s txn.transaction_id := by
        simp [State.process, hk]
      rw [hP]
      exact process_resolve_accounts_frame s _ c hc
    · have hP : State.process s txn =
          State.process_chargeback s txn.transaction_id := by
        simp [State.process, hk]
      rw [hP]
      exact process_chargeback_accounts_frame s _ c hc
  · intro X hk hacc
    have hP : State.process s txn = State.process_deposit s txn X := by
      simp [State.process, hk]
    rw [hP]
    rcases hf : AMap.find s.transactions txn.transaction_id with _ | d
    · rw [process_deposit_fresh s txn X hf]
      simp [hacc, AMap.find_set_self]
    · rw [process_deposit_dup s txn X d hf]
      simp [hacc, AMap.find_set_self]
  · intro X hk
    have hP : State.process s txn = State.process_withdrawal s txn X := by
      simp [State.process, hk]
    rw [hP]
    by_cases hl : ((AMap.find s.accounts txn.client_id).getD
        AccountState.default).locked = true
    · simp [State.process_withdrawal, hl, AMap.find_set_self]
    · rcases hf : AMap.find s.transactions txn.transaction_id with _ | d
      · simp [State.process_withdrawal, hl, State.cache_transaction, hf,
          AMap.find_set_self]
      · simp [State.process_withdrawal, hl, State.cache_transaction, hf,
          AMap.find_set_self]

/-- C10 witness: a dispute of id 1 leaves the unrelated history record 2 and
the unrelated account 2 untouched on a concrete two-client state. -/
theorem claim10_witness :
    AMap.find (State.process
      { transactions :=
          [(1, Transaction.new 1 1 (TransactionInner.Deposit 10000)),
           (2, Transaction.new 2 2 (TransactionInner.Deposit 20000))],
        accounts :=
          [(1, { available := 10000, held := 0, locked := false }),
           (2, { available := 20000, held := 0, locked := false })] }
      (Transaction.new 1 9 TransactionInner.Dispute)).1.transactions 2 =
    AMap.find
      ({ transactions :=
           [(1, Transaction.new 1 1 (TransactionInner.Deposit 10000)),
            (2, Transaction.new 2 2 (TransactionInner.Deposit 20000))],
         accounts :=
           [(1, { available := 10000, held := 0, locked := false }),
            (2, { available := 20000, held := 0, locked := false })] } :
        State).transactions 2 :=
  (claim10_frame
    { transactions :=
        [(1, Transaction.new 1 1 (TransactionInner.Deposit 10000)),
         (2, Transaction.new 2 2 (TransactionInner.Deposit 20000))],
      accounts :=
        [(1, { available := 10000, held := 0, locked := false }),
         (2, { available := 20000, held := 0, locked := false })] }
    (Transaction.new 1 9 TransactionInner.Dispute)).1 2 (by decide)

/- Claim C8. -/

/-- After any `process` step the accounts map is unchanged or updated (once
or twice) at a single key — in particular no account is ever removed. -/
theorem process_accounts_shape (s : State) (txn : Transaction) :
    (State.process s txn).1.accounts = s.accounts ∨
    (∃ c0 v, (State.process s txn).1.accounts = AMap.set s.accounts c0 v) ∨
    (∃ c0 v v2, (State.process s txn).1.accounts =
      AMap.set (AMap.set s.accounts c0 v) c0 v2) := by
  cases hinner : txn.inner with
  | Deposit X =>
    have hP : State.process s txn = State.process_deposit s txn X := by
      simp [State.process, hinner]
    rcases hf : AMap.find s.transactions txn.transaction_id with _ | d
    · right; left
      refine ⟨txn.client_id,
        { (AMap.find s.accounts txn.client_id).getD AccountState.default with
          available := ((AMap.find s.accounts txn.client_id).getD
            AccountState.default).available + X }, ?_⟩
      rw [hP, process_deposit_fresh s txn X hf]
    · right; left
      refine ⟨txn.client_id,
        { (AMap.find s.accounts txn.client_id).getD AccountState.default with
          available := ((AMap.find s.accounts txn.client_id).getD
            AccountState.default).available + X }, ?_⟩
      rw [hP, process_deposit_dup s txn X d hf]
  | Withdrawal X =>
    have hP : State.process s txn = State.process_withdrawal s txn X := by
      simp [State.process, hinner]
    by_cases hl : ((AMap.find s.accounts txn.client_id).getD
        AccountState.default).locked = true
    · right; left
      refine ⟨txn.client_id,
        (AMap.find s.accounts txn.client_id).getD AccountState.default, ?_⟩
      rw [hP]
      simp [State.process_withdrawal, hl]
    · right; right
      refine ⟨txn.client_id,
        (AMap.find s.accounts txn.client_id).getD AccountState.default,
        (if X ≤ ((AMap.find s.accounts txn.client_id).getD
              AccountState.default).available
         then { (AMap.find s.accounts txn.client_id).getD AccountState.default with
                available := ((AMap.find s.accounts txn.client_id).getD
                  AccountState.default).available - X }
         else (AMap.find s.accounts txn.client_id).getD AccountState.default), ?_⟩
      rw [hP]
      rcases hf : AMap.find s.transactions txn.transaction_id with _ | d <;>
        simp [State.process_withdrawal, hl, State.cache_transaction, hf]
  | Dispute =>
    have hP : State.process s txn =
        State.process_dispute s txn.transaction_id := by
      simp [State.process, hinner]
    rcases hf : AMap.find s.transactions txn.transaction_id with _ | dt
    · left; rw [hP, process_dispute_missing _ _ hf]
    · cases hst : dt.state with
      | Alive =>
        rcases ham : disputed_amount dt.inner txn.transaction_id with e | X
        · left; rw [hP]; simp [State.process_dispute, hf, hst, ham]
        · rcases hac : AMap.find s.accounts dt.client_id with _ | a
          · left; rw [hP]; simp [State.process_dispute, hf, hst, ham, hac]
          · right; left
            refine ⟨dt.client_id,
              { a with available := a.available - X, held := a.held + X }, ?_⟩
            rw [hP, process_dispute_apply s _ dt X a hf hst ham hac]
      | Disputed =>
        left; rw [hP, process_dispute_not_alive _ _ dt hf (by simp [hst])]
      | ChargedBack =>
        left; rw [hP, process_dispute_not_alive _ _ dt hf (by simp [hst])]
  | Resolve =>
    have hP : State.process s txn =
        State.process_resolve s txn.transaction_id := by
      simp [State.process, hinner]
    rcases hf : AMap.find s.transactions txn.transaction_id with _ | dt
    · left; rw [hP, process_resolve_missing _ _ hf]
    · cases hst : dt.state with
      | Disputed =>
        rcases ham : disputed_amount dt.inner txn.transaction_id with e | X
        · left; rw [hP]; simp [State.process_resolve, hf, hst, ham]
        · rcases hac : AMap.find s.accounts dt.client_id with _ | a
          · left; rw [hP]; simp [State.process_resolve, hf, hst, ham, hac]
          · right; left
            refine ⟨dt.client_id,
              { a with available := a.available + X, held := a.held - X }, ?_⟩
            rw [hP, process_resolve_apply s _ dt X a hf hst ham hac]
      | Alive =>
        left; rw [hP, process_resolve_not_disputed _ _ dt hf (by simp [hst])]
      | ChargedBack =>
        left; rw [hP, process_resolve_not_disputed _ _ dt hf (by simp [hst])]
  | Chargeback =>
    have hP : State.process s txn =
        State.process_chargeback s txn.transaction_id := by
      simp [State.process, hinner]
    rcases hf : AMap.find s.transactions txn.transaction_id with _ | dt
    · left; rw [hP, process_chargeback_missing _ _ hf]
    · cases hst : dt.state with
      | Disputed =>
        rcases ham : disputed_amount dt.inner txn.transaction_id with e | X
        · left; rw [hP]; simp [State.process_chargeback, hf, hst, ham]
        · rcases hac : AMap.find s.accounts dt.client_id with _ | a
          · left; rw [hP]; simp [State.process_chargeback, hf, hst, ham, hac]
          · right; left
            refine ⟨dt.client_id,
              { a with held := a.held - X, locked := true }, ?_⟩
            rw [hP, process_chargeback_apply s _ dt X a hf hst ham hac]
      | Alive =>
        left
        rw [hP, process_chargeback_not_disputed _ _ dt hf (by simp [hst])]
      | ChargedBack =>
        left
        rw [hP, process_chargeback_not_disputed _ _ dt hf (by simp [hst])]

/-- Accounts present before a `process` step are still present after it. -/
theorem process_accounts_grow (s : State) (txn : Transaction) (c : ClientId)
    (h : (AMap.find s.accounts c).isSome) :
    (AMap.find (State.process s txn).1.accounts c).isSome := by
  rcases process_accounts_shape s txn with heq | ⟨c0, v, heq⟩ | ⟨c0, v, v2, heq⟩
  · rw [heq]; exact h
  · rw [heq]; exact AMap.find_set_isSome _ _ _ _ h
  · rw [heq]
    exact AMap.find_set_isSome _ _ _ _ (AMap.find_set_isSome _ _ _ _ h)

/-- `goodState` is preserved by every `process` step, also on the error
path. -/
theorem goodState_process (s : State) (txn : Transaction) (hg : goodState s) :
    goodState (State.process s txn).1 := by
  intro id t hfind
  rcases process_transactions_shape s txn with heq | ⟨hnone, hkw, haw, heq⟩ |
    ⟨dt0, st2, hf0, hstep, heq⟩
  · rw [heq] at hfind
    obtain ⟨hk, acct, hacct⟩ := hg id t hfind
    refine ⟨hk, ?_⟩
    have h2 := process_accounts_grow s txn t.client_id (by simp [hacct])
    rcases Option.isSome_iff_exists.mp h2 with ⟨a2, ha2⟩
    exact ⟨a2, ha2⟩
  · rw [heq] at hfind
    by_cases hid : id = txn.transaction_id
    · subst hid
      rw [AMap.find_set_self] at hfind
      cases hfind
      refine ⟨?_, ?_⟩
      · rcases hkw with ⟨X, hX⟩ | ⟨X, hX⟩
        · exact Or.inl ⟨X, hX⟩
        · exact Or.inr ⟨X, hX⟩
      · rcases Option.isSome_iff_exists.mp haw with ⟨a2, ha2⟩
        exact ⟨a2, ha2⟩
    · rw [AMap.find_set_ne _ _ _ _ hid] at hfind
      obtain ⟨hk, acct, hacct⟩ := hg id t hfind
      refine ⟨hk, ?_⟩
      have h2 := process_accounts_grow s txn t.client_id (by simp [hacct])
      rcases Option.isSome_iff_exists.mp h2 with ⟨a2, ha2⟩
      exact ⟨a2, ha2⟩
  · rw [heq] at hfind
    by_cases hid : id = txn.transaction_id
    · subst hid
      rw [AMap.find_set_self] at hfind
      cases hfind
      obtain ⟨hk, acct, hacct⟩ := hg txn.transaction_id dt0 hf0
      refine ⟨by simpa using hk, ?_⟩
      have h2 := process_accounts_grow s txn dt0.client_id (by simp [hacct])
      rcases Option.isSome_iff_exists.mp h2 with ⟨a2, ha2⟩
      exact ⟨a2, by simpa using ha2⟩
    · rw [AMap.find_set_ne _ _ _ _ hid] at hfind
      obtain ⟨hk, acct, hacct⟩ := hg id t hfind
      refine ⟨hk, ?_⟩
      have h2 := process_accounts_grow s txn t.client_id (by simp [hacct])
      rcases Option.isSome_iff_exists.mp h2 with ⟨a2, ha2⟩
      exact ⟨a2, ha2⟩

/-- On a `goodState`, `process` can never fail with `DisputeTargetInvalid`
or `DisputedTransactionClientMissing`. -/
theorem goodState_no_bad_errors (s : State) (hg : goodState s)
    (txn : Transaction) (i : TransactionId) (c : ClientId) :
    (State.process s txn).2 ≠ some (ProcessError.DisputeTargetInvalid i) ∧
    (State.process s txn).2 ≠
      some (ProcessError.DisputedTransactionClientMissing c) := by
  cases hinner : txn.inner with
  | Deposit X =>
    have hP : State.process s txn = State.process_deposit s txn X := by
      simp [State.process, hinner]
    rw [hP]
    rcases hf : AMap.find s.transactions txn.transaction_id with _ | d
    · rw [process_deposit_fresh s txn X hf]
      exact ⟨by simp, by simp⟩
    · rw [process_deposit_dup s txn X d hf]
      exact ⟨by simp, by simp⟩
  | Withdrawal X =>
    have hP : State.process s txn = State.process_withdrawal s txn X := by
      simp [State.process, hinner]
    rw [hP]
    by_cases hl : ((AMap.find s.accounts txn.client_id).getD
        AccountState.default).locked = true
    · constructor <;> simp [State.process_withdrawal, hl]
    · rcases hf : AMap.find s.transactions txn.transaction_id with _ | d <;>
        constructor <;>
        simp [State.process_withdrawal, hl, State.cache_transaction, hf]
  | Dispute =>
    have hP : State.process s txn =
        State.process_dispute s txn.transaction_id := by
      simp [State.process, hinner]
    rw [hP]
    rcases hf : AMap.find s.transactions txn.transaction_id with _ | dt
    · rw [process_dispute_missing _ _ hf]
      exact ⟨by simp, by simp⟩
    · obtain ⟨hk, acct, hacct⟩ := hg _ dt hf
      have hamt : ∃ X, disputed_amount dt.inner txn.transaction_id =
          Except.ok X := by
        rcases hk with ⟨a, ha⟩ | ⟨a, ha⟩
        · exact ⟨a, by simp [disputed_amount, ha]⟩
        · exact ⟨-a, by simp [disputed_amount, ha]⟩
      rcases hamt with ⟨X, hX⟩
      cases hst : dt.state with
      | Alive =>
        rw [process_dispute_apply s _ dt X acct hf hst hX hacct]
        exact ⟨by simp, by simp⟩
      | Disputed =>
        rw [process_dispute_not_alive _ _ dt hf (by simp [hst])]
        exact ⟨by simp, by simp⟩
      | ChargedBack =>
        rw [process_dispute_not_alive _ _ dt hf (by simp [hst])]
        exact ⟨by simp, by simp⟩
  | Resolve =>
    have hP : State.process s txn =
        State.process_resolve s txn.transaction_id := by
      simp [State.process, hinner]
    rw [hP]
    rcases hf : AMap.find s.transactions txn.transaction_id with _ | dt
    · rw [process_resolve_missing _ _ hf]
      exact ⟨by simp, by simp⟩
    · obtain ⟨hk, acct, hacct⟩ := hg _ dt hf
      have hamt : ∃ X, disputed_amount dt.inner txn.transaction_id =
          Except.ok X := by
        rcases hk with ⟨a, ha⟩ | ⟨a, ha⟩
        · exact ⟨a, by simp [disputed_amount, ha]⟩
        · exact ⟨-a, by simp [disputed_amount, ha]⟩
      rcases hamt with ⟨X, hX⟩
      cases hst : dt.state with
      | Disputed =>
        rw [process_resolve_apply s _ dt X acct hf hst hX hacct]
        exact ⟨by simp, by simp⟩
      | Alive =>
        rw [process_resolve_not_disputed _ _ dt hf (by simp [hst])]
        exact ⟨by simp, by simp⟩
      | ChargedBack =>
        rw [process_resolve_not_disputed _ _ dt hf (by simp [hst])]
        exact ⟨by simp, by simp⟩
  | Chargeback =>
    have hP : State.process s txn =
        State.process_chargeback s txn.transaction_id := by
      simp [State.process, hinner]
    rw [hP]
    rcases hf : AMap.find s.transactions txn.transaction_id with _ | dt
    · rw [process_chargeback_missing _ _ hf]
      exact ⟨by simp, by simp⟩
    · obtain ⟨hk, acct, hacct⟩ := hg _ dt hf
      have hamt : ∃ X, disputed_amount dt.inner txn.transaction_id =
          Except.ok X := by
        rcases hk with ⟨a, ha⟩ | ⟨a, ha⟩
        · exact ⟨a, by simp [disputed_amount, ha]⟩
        · exact ⟨-a, by simp [disputed_amount, ha]⟩
      rcases hamt with ⟨X, hX⟩
      cases hst : dt.state with
      | Disputed =>
        rw [process_chargeback_apply s _ dt X acct hf hst hX hacct]
        exact ⟨by simp, by simp⟩
      | Alive =>
        rw [process_chargeback_not_disputed _ _ dt hf (by simp [hst])]
        exact ⟨by simp, by simp⟩
      | ChargedBack =>
        rw [process_chargeback_not_disputed _ _ dt hf (by simp [hst])]
        exact ⟨by simp, by simp⟩

/-- C8: every state reachable from the empty state by successful steps is a
`goodState` (history holds only Deposit/Withdrawal records whose clients have
accounts), and from such a state `process` never returns
`DisputeTargetInvalid` or `DisputedTransactionClientMissing`. -/
theorem claim8_reachable_good (s : State) (hreach : Reachable s) :
    goodState s ∧
    ∀ txn i c,
      (State.process s txn).2 ≠ some (ProcessError.DisputeTargetInvalid i) ∧
      (State.process s txn).2 ≠
        some (ProcessError.DisputedTransactionClientMissing c) := by
  have hg : goodState s := by
    induction hreach with
    | refl =>
      intro id t hfind
      simp [State.default, AMap.find] at hfind
    | @step s0 s1 txn0 hr heq ih =>
      have h2 := goodState_process s0 txn0 ih
      rw [heq] at h2
      exact h2
  exact ⟨hg, fun txn i c => goodState_no_bad_errors s hg txn i c⟩

/-- C8 witness: the theorem applied at the (trivially reachable) empty
state: a dispute there cannot produce either fatal error. -/
theorem claim8_witness :
    (State.process State.default (Transaction.new 1 1 TransactionInner.Dispute)).2 ≠
      some (ProcessError.DisputeTargetInvalid 1) :=
  ((claim8_reachable_good State.default Reachable.refl).2
    (Transaction.new 1 1 TransactionInner.Dispute) 1 1).1
